import Mathlib

set_option maxHeartbeats 1000000

/-!
Shallow embedding of the `gob` B-language parser (src/parse/parser.go) and of
the AST classification predicates (ast file in src/unnamed/part_000).

Modelling conventions:
* Go machine integers that index the token buffer are modelled as `Int`
  (`tokIdx` starts at -1 in `NewParser`, exactly as in the source).
* The lexer itself is not part of src/; the parser consumes a token stream.
  We model the stream the lexer produces as a `List (Except LexError Token)`:
  each `NextToken` call pops the head (a token, or a lex error), and once the
  list is exhausted the lexer keeps returning `Eof` tokens, as the spec
  prescribes ("on hitting end of input returns a token of kind Eof
  repeatedly").
* Go functions returning `(value, error)` pairs become computations in the
  monad `PM`; a returned non-nil error is the `.err` outcome.  A Go `panic`
  is the distinct `.panic` outcome, which is not observable by the ordinary
  `err != nil` checks of callers (only by `recover` in `Parse`), exactly as
  in Go.  Indexing the token buffer out of range is the Go runtime panic
  `.indexOutOfRange`.
* Loops (`for` statements) are modelled as fuel-indexed auxiliary recursive
  functions; the mutually recursive statement/expression parsers also take a
  fuel argument, decremented on every nested call.  Running out of fuel is a
  `.panic .outOfFuel` outcome (reachable only with insufficient fuel; every
  concrete evaluation below supplies enough fuel).
* Error message strings follow the Go `fmt.Sprintf` texts except that
  apostrophes and interpolated token values are omitted from messages
  (messages are otherwise faithful; no claim inspects message text).
-/

namespace Gob

/-- Token kinds of the lexer, as fixed by the spec (section 3) and by the
uses in parser.go. -/
inductive TokenType where
  | tkNumber
  | tkString
  | tkCharacter
  | tkIdent
  | tkKeyword
  | tkOperator
  | tkTernary
  | tkColon
  | tkSemicolon
  | tkComma
  | tkOpenParen
  | tkCloseParen
  | tkOpenBrace
  | tkCloseBrace
  | tkOpenBracket
  | tkCloseBracket
  | tkError
  | tkEof
  deriving DecidableEq, Repr

/-- Printed form of a token kind, used in parse error messages
(Go prints the kind with fmt.Sprintf percent-v). -/
def TokenType.str : TokenType → String
  | .tkNumber => "tkNumber"
  | .tkString => "tkString"
  | .tkCharacter => "tkCharacter"
  | .tkIdent => "tkIdent"
  | .tkKeyword => "tkKeyword"
  | .tkOperator => "tkOperator"
  | .tkTernary => "tkTernary"
  | .tkColon => "tkColon"
  | .tkSemicolon => "tkSemicolon"
  | .tkComma => "tkComma"
  | .tkOpenParen => "tkOpenParen"
  | .tkCloseParen => "tkCloseParen"
  | .tkOpenBrace => "tkOpenBrace"
  | .tkCloseBrace => "tkCloseBrace"
  | .tkOpenBracket => "tkOpenBracket"
  | .tkCloseBracket => "tkCloseBracket"
  | .tkError => "tkError"
  | .tkEof => "tkEof"

/-- A lexer token: kind and lexeme value.  Source positions are carried by
the Go struct only for diagnostics and are not modelled. -/
structure Token where
  kind : TokenType
  value : String
  deriving DecidableEq, Repr

/-- The Eof token the lexer returns repeatedly at end of input. -/
def eofTok : Token := ⟨.tkEof, ""⟩

/-- A lexer error (type LexError of the repository): the Error token it was
reported at, with its message. -/
structure LexError where
  tok : Token
  msg : String
  deriving DecidableEq, Repr

/-- A Go `error` value as returned by the parser functions: either a
ParseError (NewParseError in parser.go) or a lexer error propagated by
`nextToken`. -/
inductive GoError where
  | parseError (tok : Token) (msg : String)
  | lexError (e : LexError)
  deriving DecidableEq, Repr

/-- A Go panic payload.  `accept` and `NewParser` panic with the error value
returned by `nextToken` (`.goErr`); indexing `p.tokens` out of range is the
Go runtime panic `.indexOutOfRange`; `.outOfFuel` is the modelling artifact
for exhausted fuel. -/
inductive GoPanic where
  | goErr (e : GoError)
  | indexOutOfRange
  | outOfFuel
  deriving DecidableEq, Repr

/-- An `auto` declaration item (struct VarDecl): name, whether it is a
vector declaration, and the declared size. -/
structure VarDecl where
  name : String
  vecDecl : Bool
  size : Int
  deriving DecidableEq, Repr

mutual

/-- The AST node universe (the Node interface of the repository, one
constructor per implementing struct, with the field types used by
parser.go).  `nilNode` models a Go nil `Node` interface value (the zero
value of an unassigned Node field, e.g. the else body of an `if` without
`else`). -/
inductive Node where
  | nilNode
  | ArrayAccessNode (array : Node) (index : Node)
  | BinaryNode (left : Node) (oper : String) (right : Node)
  | BlockNode (nodes : List Node)
  | BreakNode
  | CharacterNode (value : String)
  | ExternVarDeclNode (names : List String)
  | ExternVarInitNode (name : String) (value : Node)
  | ExternVecInitNode (name : String) (size : Int) (values : List Node)
  | FunctionNode (name : String) (params : List String) (body : Node)
  | FunctionCallNode (callable : Node) (args : List Node)
  | GotoNode (label : String)
  | IdentNode (value : String)
  | IfNode (cond : Node) (body : Node) (hasElse : Bool) (elseBody : Node)
  | IntegerNode (value : Int)
  | LabelNode (name : String)
  | NullNode
  | ParenNode (node : Node)
  | ReturnNode (node : Node)
  | StatementNode (expr : Node)
  | StringNode (value : String)
  | SwitchNode (cond : Node) (cases : List CaseNode) (defaultCase : List Node)
  | TernaryNode (cond : Node) (trueBody : Node) (falseBody : Node)
  | UnaryNode (oper : String) (node : Node) (postfixFlag : Bool)
  | VarDeclNode (vars : List VarDecl)
  | WhileNode (cond : Node) (body : Node)

/-- A `case` arm of a switch (struct caseNode): its constant condition and
its statements. -/
inductive CaseNode where
  | mk (cond : Node) (statements : List Node)

end

/-- The root of a parse (struct TranslationUnit): file name, function
declarations and global variable initializers in source order. -/
structure TranslationUnit where
  File : String
  Funcs : List Node
  Vars : List Node

/-- The parser state (struct Parser): the name the lexer was created with,
the not-yet-consumed lexer output, the append-only token buffer, and the
current token index. -/
structure ParserS where
  name : String
  stream : List (Except LexError Token)
  tokens : List Token
  tokIdx : Int

/-- Outcome of one parser computation: a value, a returned Go error, or a
panic. -/
inductive PRes (α : Type) where
  | ok (a : α)
  | err (e : GoError)
  | panic (p : GoPanic)

/-- The parser monad: state passing over `ParserS` with the three-way
outcome `PRes`.  Errors and panics keep the state at the point of failure,
as in Go (callers can observe `p.tokIdx` after a failed call). -/
def PM (α : Type) : Type := ParserS → PRes α × ParserS

/-- Monadic bind for `PM`: returned errors and panics short-circuit. -/
def PM.bind (m : PM α) (f : α → PM β) : PM β := fun s =>
  match m s with
  | (.ok a, s') => f a s'
  | (.err e, s') => (.err e, s')
  | (.panic p, s') => (.panic p, s')

instance : Monad PM where
  pure a := fun s => (.ok a, s)
  bind := PM.bind

/-- Return a Go error (the `return nil, err` idiom). -/
def throwE (e : GoError) : PM α := fun s => (.err e, s)

/-- Raise a Go panic. -/
def panicF (p : GoPanic) : PM α := fun s => (.panic p, s)

/-- Read the parser state. -/
def getS : PM ParserS := fun s => (.ok s, s)

/-- Replace the parser state. -/
def setS (s' : ParserS) : PM Unit := fun _ => (.ok (), s')

/-- Update the parser state. -/
def modifyS (f : ParserS → ParserS) : PM Unit := fun s => (.ok (), f s)

/-- Observe the error of a computation, as Go callers do with
`x, err := f(); if err != nil`.  Panics are not observable this way. -/
def attempt (m : PM α) : PM (Except GoError α) := fun s =>
  match m s with
  | (.ok a, s') => (.ok (.ok a), s')
  | (.err e, s') => (.ok (.error e), s')
  | (.panic p, s') => (.panic p, s')

/-- Go strconv.Atoi restricted to what the parser feeds it: an optional
sign followed by decimal digits (overflow is not modelled; the lexer only
produces bare digit strings). -/
def atoi (s : String) : Except Unit Int :=
  let cs := s.toList
  let core : List Char :=
    if cs.head? = some '-' ∨ cs.head? = some '+' then cs.drop 1 else cs
  let sign : Int := if cs.head? = some '-' then -1 else 1
  if core.length > 0 ∧ core.all Char.isDigit then
    .ok (sign * (core.foldl (fun acc c => acc * 10 + ((c.toNat : Int) - 48)) 0))
  else
    .error ()

/-- Modelled from the spec: the function `OperatorPrecedence` is declared in
a file of the repository absent from src/ (parser.go calls it at the
precedence resolution step of `parseExpression`).  The spec (section 4.2)
lists the binary precedence levels from highest to lowest:
`* / %`; `+ -`; `<< >>`; `< <= > >=`; `== !=`; `&`; `^`; `|`; `&&`; `||`;
assignment `=` and `=op`.  A larger number binds tighter; the second
component reports whether the operator is known. -/
def OperatorPrecedence (op : String) : Int × Bool :=
  if op = "*" ∨ op = "/" ∨ op = "%" then (11, true)
  else if op = "+" ∨ op = "-" then (10, true)
  else if op = "<<" ∨ op = ">>" then (9, true)
  else if op = "<" ∨ op = "<=" ∨ op = ">" ∨ op = ">=" then (8, true)
  else if op = "==" ∨ op = "!=" then (7, true)
  else if op = "&" then (6, true)
  else if op = "^" then (5, true)
  else if op = "|" then (4, true)
  else if op = "&&" then (3, true)
  else if op = "||" then (2, true)
  else if op = "=" ∨ op = "=+" ∨ op = "=-" ∨ op = "=*" ∨ op = "=/" ∨
          op = "=%" ∨ op = "=&" ∨ op = "=|" ∨ op = "=^" ∨ op = "=<<" ∨
          op = "=>>" then (1, true)
  else (0, false)

/-- parser.go `tokenAt`: `p.tokens[idx]`, a Go runtime panic when the index
is out of range. -/
def tokenAt (idx : Int) : PM Token := fun s =>
  if h : 0 ≤ idx ∧ idx.toNat < s.tokens.length then
    (.ok (s.tokens.get ⟨idx.toNat, h.2⟩), s)
  else
    (.panic .indexOutOfRange, s)

/-- parser.go `token`: the token at the current index. -/
def token : PM Token := fun s => tokenAt s.tokIdx s

/-- parser.go `nextToken`: advance the index; serve the token from the
buffer when present, otherwise pull one token from the lexer (a lex error
is returned as an error and the pulled token is not buffered). -/
def nextToken : PM Token := fun s0 =>
  if h : 0 ≤ s0.tokIdx + 1 ∧ (s0.tokIdx + 1).toNat < s0.tokens.length then
    (.ok (s0.tokens.get ⟨(s0.tokIdx + 1).toNat, h.2⟩),
     { s0 with tokIdx := s0.tokIdx + 1 })
  else if s0.tokIdx + 1 < (s0.tokens.length : Int) then
    (.panic .indexOutOfRange, { s0 with tokIdx := s0.tokIdx + 1 })
  else
    match s0.stream with
    | [] =>
        (.ok eofTok, { s0 with tokIdx := s0.tokIdx + 1,
                               tokens := s0.tokens ++ [eofTok] })
    | .error e :: rest =>
        (.err (.lexError e), { s0 with tokIdx := s0.tokIdx + 1,
                                       stream := rest })
    | .ok tok :: rest =>
        (.ok tok, { s0 with tokIdx := s0.tokIdx + 1,
                            tokens := s0.tokens ++ [tok], stream := rest })

/-- parser.go `accept`: if the current token has the wanted kind (and value,
when `str` is nonempty), consume it and return it; otherwise return nothing
without consuming.  A lex error surfaced by `nextToken` while consuming is a
panic (the `panic(err)` in the source). -/
def accept (t : TokenType) (str : String) : PM (Option Token) := fun s =>
  match token s with
  | (.ok cur, s1) =>
      if cur.kind = t then
        if str = "" ∨ str = cur.value then
          -- Get next token if we have matched; its error is a panic
          match nextToken s1 with
          | (.ok _, s2) => (.ok (some cur), s2)
          | (.err e, s2) => (.panic (.goErr e), s2)
          | (.panic p, s2) => (.panic p, s2)
        else (.ok none, s1)
      else (.ok none, s1)
  | (.err e, s1) => (.err e, s1)
  | (.panic p, s1) => (.panic p, s1)

/-- parser.go `acceptType`. -/
def acceptType (t : TokenType) : PM (Option Token) := accept t ""

/-- parser.go `expect`: like `accept`, but a mismatch is a parse error at
the current token. -/
def expect (t : TokenType) (str : String) : PM Token := fun s =>
  match accept t str s with
  | (.ok (some tok), s1) => (.ok tok, s1)
  | (.ok none, s1) =>
      (match token s1 with
       | (.ok cur, s2) =>
           if str = "" then
             (.err (.parseError cur ("Expected " ++ t.str)), s2)
           else
             (.err (.parseError cur
               ("Expected (" ++ t.str ++ ": " ++ str ++ ")")), s2)
       | (.err e, s2) => (.err e, s2)
       | (.panic p, s2) => (.panic p, s2))
  | (.err e, s1) => (.err e, s1)
  | (.panic p, s1) => (.panic p, s1)

/-- parser.go `expectType`. -/
def expectType (t : TokenType) : PM Token := expect t ""

/-- parser.go `expectOneOf`: return the first listed kind matching the
current token, consuming it; note that the source ignores the error of its
`nextToken` call (a lex error is silently dropped here). -/
def expectOneOf (ts : List TokenType) : PM (TokenType × Token) := fun s =>
  match token s with
  | (.ok tok, s1) =>
      (match ts.find? (fun tt => tok.kind = tt) with
       | some tt =>
           (match nextToken s1 with
            | (_, s2) => (.ok (tt, tok), s2))
       | none =>
           (.err (.parseError tok ("Expected one of: " ++
              String.intercalate ", " (ts.map TokenType.str))), s1))
  | (.err e, s1) => (.err e, s1)
  | (.panic p, s1) => (.panic p, s1)

/-- parser.go `parseConstant`: Number, Character or String.  The Go default
branch returns a nil node with a nil error; it is unreachable because
`expectOneOf` only returns listed kinds, and is modelled by `nilNode`. -/
def parseConstant : PM Node := do
  match ← attempt (expectOneOf [.tkNumber, .tkCharacter, .tkString]) with
  | .error e => throwE e
  | .ok (kind, tok) =>
      match kind with
      | .tkNumber =>
          (match atoi tok.value with
           | .error _ => do
               let cur ← token
               throwE (.parseError cur "invalid integer literal")
           | .ok num => pure (.IntegerNode num))
      | .tkCharacter => pure (.CharacterNode tok.value)
      | .tkString => pure (.StringNode tok.value)
      | _ => pure .nilNode

/-- parser.go `parseIdent`. -/
def parseIdent : PM Node := do
  let tok ← expectType .tkIdent
  pure (.IdentNode tok.value)

/-- Loop body of parser.go `parseVariableList` (the `for id != nil && ok`
loop after the first identifier was accepted): stop without a comma,
otherwise require another identifier. -/
def varListLoop : Nat → List String → PM (List String)
  | 0, _ => panicF .outOfFuel
  | f + 1, vars => do
    match ← acceptType .tkComma with
    | none => pure vars
    | some _ => do
        let id ← expectType .tkIdent
        varListLoop f (vars ++ [id.value])

/-- parser.go `parseVariableList`: zero or more comma separated
identifiers. -/
def parseVariableList (f : Nat) : PM (List String) := do
  match ← acceptType .tkIdent with
  | none => pure []
  | some id => varListLoop f [id.value]

/-- parser.go `parseExternVarDecl`: `extrn a, b, c;` with at least one
name. -/
def parseExternVarDecl (f : Nat) : PM Node := do
  _ ← expect .tkKeyword "extrn"
  let names ← parseVariableList f
  _ ← expectType .tkSemicolon
  if names.length ≤ 0 then do
    let cur ← token
    throwE (.parseError cur "expected at least 1 variable in extrn declaration")
  else
    pure (.ExternVarDeclNode names)

/-- The constant list loop of parser.go `parseExternalVariableInit` (vector
branch): one constant, then continue while a comma follows. -/
def vecValuesLoop : Nat → List Node → PM (List Node)
  | 0, _ => panicF .outOfFuel
  | f + 1, values => do
    let constant ← parseConstant
    let values := values ++ [constant]
    match ← acceptType .tkComma with
    | none => pure values
    | some _ => vecValuesLoop f values

/-- parser.go `parseExternalVariableInit`: `name [size] v0, v1, ...;` or
`name constant? ;`; a missing scalar initializer defaults to
`IntegerNode 0` when the semicolon is present. -/
def parseExternalVariableInit (f : Nat) : PM Node := do
  let ident ← expectType .tkIdent
  match ← acceptType .tkOpenBracket with
  | some _ => do
      let size ← expectType .tkNumber
      _ ← expectType .tkCloseBracket
      match atoi size.value with
      | .error _ => do
          let cur ← token
          throwE (.parseError cur "Bad integer literal")
      | .ok sz => do
          let values ← vecValuesLoop f []
          _ ← expectType .tkSemicolon
          pure (.ExternVecInitNode ident.value sz values)
  | none => do
      match ← attempt parseConstant with
      | .error _ => do
          (match ← attempt (expectType .tkSemicolon) with
           | .ok _ =>
               -- Empty declarations are zero filled
               pure (.ExternVarInitNode ident.value (.IntegerNode 0))
           | .error e2 => throwE e2)
      | .ok constant => do
          _ ← expectType .tkSemicolon
          pure (.ExternVarInitNode ident.value constant)

/-- The item loop of parser.go `parseVarDecl`: one `auto` item
(`name` or `name[size]`), repeated while a comma follows. -/
def varDeclLoop : Nat → List VarDecl → PM (List VarDecl)
  | 0, _ => panicF .outOfFuel
  | f + 1, vars => do
      let ident ← expectType .tkIdent
      let vars ← (do
        match ← acceptType .tkOpenBracket with
        | some _ => do
            let num ← expectType .tkNumber
            match atoi num.value with
            | .error _ => do
                let cur ← token
                throwE (.parseError cur "invalid integer literal")
            | .ok size => do
                let vars := vars ++ [VarDecl.mk ident.value true size]
                _ ← expectType .tkCloseBracket
                pure vars
        | none => pure (vars ++ [VarDecl.mk ident.value false 0]))
      match ← acceptType .tkComma with
      | none => pure vars
      | some _ => varDeclLoop f vars

/-- parser.go `parseVarDecl`: `auto` declarations with at least one item. -/
def parseVarDecl (f : Nat) : PM Node := do
  _ ← expect .tkKeyword "auto"
  let vars ← varDeclLoop f []
  _ ← expectType .tkSemicolon
  if vars.length ≤ 0 then do
    let cur ← token
    throwE (.parseError cur "expected at least 1 variable in auto declaration")
  else
    pure (.VarDeclNode vars)

/-- The alternative-try pattern repeated six times in parser.go
`parseStatement` (`if node, err := p.parseX(); err != nil && p.tokIdx != pos
then return the error, else if err == nil return the node, else fall
through`): a failure that consumed tokens is a hard error; a failure that
consumed nothing silently falls through to `k`. -/
def tryStmt (pos : Int) (m : PM Node) (k : PM Node) : PM Node := do
  match ← attempt m with
  | .ok node => pure node
  | .error e => do
      if (← getS).tokIdx ≠ pos then throwE e else k

mutual

/-- parser.go `parseBlock`: `{ statement* }`. -/
def parseBlock : Nat → PM Node
  | 0 => panicF .outOfFuel
  | f + 1 => do
      _ ← expectType .tkOpenBrace
      let nodes ← blockLoop f []
      _ ← expectType .tkCloseBrace
      pure (.BlockNode nodes)

/-- The statement loop of parser.go `parseBlock`
(`for p.token().kind != tkCloseBrace`). -/
def blockLoop : Nat → List Node → PM (List Node)
  | 0, _ => panicF .outOfFuel
  | f + 1, nodes => do
      let cur ← token
      if cur.kind = .tkCloseBrace then
        pure nodes
      else do
        let stmt ← parseStatement f
        blockLoop f (nodes ++ [stmt])

/-- parser.go `parseStatement`: tries, in order, if / block / auto / extrn /
while / switch (each silently when it consumed nothing), then the
keyword-led statements, then the identifier cases (label, bare identifier,
or rewind and parse an expression statement). -/
def parseStatement : Nat → PM Node
  | 0 => panicF .outOfFuel
  | f + 1 => do
      let pos := (← getS).tokIdx
      tryStmt pos (parseIf f) <|
       tryStmt pos (parseBlock f) <|
        tryStmt pos (parseVarDecl f) <|
         tryStmt pos (parseExternVarDecl f) <|
          tryStmt pos (parseWhile f) <|
           tryStmt pos (parseSwitch f) <| do
      match ← acceptType .tkSemicolon with
      | some _ => pure .NullNode
      | none =>
      match ← accept .tkKeyword "break" with
      | some _ => do
          _ ← expectType .tkSemicolon
          pure .BreakNode
      | none =>
      match ← accept .tkKeyword "return" with
      | some _ => do
          (match ← acceptType .tkSemicolon with
           | some _ => pure (.ReturnNode .NullNode)
           | none => do
               let node ← parseExpression f
               _ ← expectType .tkSemicolon
               pure (.ReturnNode node))
      | none =>
      match ← accept .tkKeyword "goto" with
      | some _ => do
          let tok ← expectType .tkIdent
          _ ← expectType .tkSemicolon
          pure (.GotoNode tok.value)
      | none =>
      match ← acceptType .tkIdent with
      | some tok => do
          (match ← acceptType .tkColon with
           | some _ => pure (.LabelNode tok.value)
           | none => do
             match ← acceptType .tkSemicolon with
             | some _ => pure (.StatementNode (.IdentNode tok.value))
             | none => do
                 -- rewind
                 modifyS (fun s => { s with tokIdx := pos })
                 stmtExprTail f pos)
      | none => stmtExprTail f pos

/-- The closing lines of parser.go `parseStatement`: try a full expression;
a failure that consumed tokens is the error, a clean failure is
"expected statement" at the saved position; on success require `;` and wrap
in `StatementNode`. -/
def stmtExprTail : Nat → Int → PM Node
  | 0, _ => panicF .outOfFuel
  | f + 1, pos => do
      match ← attempt (parseExpression f) with
      | .error e => do
          if (← getS).tokIdx ≠ pos then
            throwE e
          else do
            let tk ← tokenAt pos
            throwE (.parseError tk "expected statement")
      | .ok node => do
          _ ← expectType .tkSemicolon
          pure (.StatementNode node)

/-- parser.go `parseIf`: `if ( expr ) statement (else statement)?`; without
`else` the else body field stays the nil Node. -/
def parseIf : Nat → PM Node
  | 0 => panicF .outOfFuel
  | f + 1 => do
      _ ← expect .tkKeyword "if"
      _ ← expectType .tkOpenParen
      let cond ← parseExpression f
      _ ← expectType .tkCloseParen
      let trueBody ← parseStatement f
      match ← accept .tkKeyword "else" with
      | some _ => do
          let els ← parseStatement f
          pure (.IfNode cond trueBody true els)
      | none => pure (.IfNode cond trueBody false .nilNode)

/-- parser.go `parseWhile`: `while ( expr ) statement`. -/
def parseWhile : Nat → PM Node
  | 0 => panicF .outOfFuel
  | f + 1 => do
      _ ← expect .tkKeyword "while"
      _ ← expectType .tkOpenParen
      let cond ← parseExpression f
      _ ← expectType .tkCloseParen
      let body ← parseStatement f
      pure (.WhileNode cond body)

/-- parser.go `parseSwitch`: `switch ( expr ) { ... }` with a body of
`case constant :` and `default :` groups. -/
def parseSwitch : Nat → PM Node
  | 0 => panicF .outOfFuel
  | f + 1 => do
      _ ← expect .tkKeyword "switch"
      _ ← expectType .tkOpenParen
      let cond ← parseExpression f
      _ ← expectType .tkCloseParen
      _ ← expectType .tkOpenBrace
      let (cases, defCase) ← switchLoop f [] []
      pure (.SwitchNode cond cases defCase)

/-- The outer body loop of parser.go `parseSwitch`: until `}`, a `case`
group or a `default` group.  The Go source rejects a second `default` by
testing `switchNode.DefaultCase != nil`; the slice is nil exactly when no
statement has ever been appended to it, so the test is modelled by
comparing the accumulated list with `[]`. -/
def switchLoop : Nat → List CaseNode → List Node →
    PM (List CaseNode × List Node)
  | 0, _, _ => panicF .outOfFuel
  | f + 1, cases, defCase => do
      match ← acceptType .tkCloseBrace with
      | some _ => pure (cases, defCase)
      | none =>
      match ← accept .tkKeyword "case" with
      | some _ => do
          let cond ← parseConstant
          _ ← expectType .tkColon
          let stmts ← switchStmtsLoop f []
          switchLoop f (cases ++ [CaseNode.mk cond stmts]) defCase
      | none =>
      match ← accept .tkKeyword "default" with
      | some _ => do
          _ ← expectType .tkColon
          match defCase with
          | _ :: _ => do
              let cur ← token
              throwE (.parseError cur "Multiple default cases")
          | [] => do
              let stmts ← switchStmtsLoop f defCase
              switchLoop f cases stmts
      | none => do
          let cur ← token
          throwE (.parseError cur "expected case or default")

/-- The statement loop shared by the `case` and `default` groups of
parser.go `parseSwitch` (the two loops in the source are textually
identical): stop, un-consuming the lookahead, at `case`, `default` or `}`;
otherwise append one statement. -/
def switchStmtsLoop : Nat → List Node → PM (List Node)
  | 0, _ => panicF .outOfFuel
  | f + 1, stmts => do
      match ← accept .tkKeyword "case" with
      | some _ => do
          modifyS (fun s => { s with tokIdx := s.tokIdx - 1 })
          pure stmts
      | none =>
      match ← accept .tkKeyword "default" with
      | some _ => do
          modifyS (fun s => { s with tokIdx := s.tokIdx - 1 })
          pure stmts
      | none =>
      match ← acceptType .tkCloseBrace with
      | some _ => do
          modifyS (fun s => { s with tokIdx := s.tokIdx - 1 })
          pure stmts
      | none => do
          let stmt ← parseStatement f
          switchStmtsLoop f (stmts ++ [stmt])

/-- parser.go `parseExpression`: a subexpression, optionally a binary
operator with a recursively parsed right-hand side (with the local
precedence rotation of the source), optionally a ternary. -/
def parseExpression : Nat → PM Node
  | 0 => panicF .outOfFuel
  | f + 1 => do
      let node ← parseSubExpression f
      let node ← (do
        match ← acceptType .tkOperator with
        | none => pure node
        | some tok => do
            let rhs ← parseExpression f
            -- Resolve precedence for multiple operators in expression
            match rhs with
            | .BinaryNode rleft roper rright =>
                let lproc := (OperatorPrecedence tok.value).1
                let rproc := (OperatorPrecedence roper).1
                if lproc > rproc then
                  pure (.BinaryNode (.BinaryNode node tok.value rleft)
                    roper rright)
                else
                  pure (.BinaryNode node tok.value
                    (.BinaryNode rleft roper rright))
            | _ => pure (.BinaryNode node tok.value rhs))
      match ← acceptType .tkTernary with
      | none => pure node
      | some _ => do
          let trueBody ← parseExpression f
          _ ← expectType .tkColon
          let falseBody ← parseExpression f
          pure (.TernaryNode node trueBody falseBody)

/-- parser.go `parseSubExpression`: an optional unary prefix operator, a
primary, and an optional `++`/`--` postfix (whose `nextToken` error the
source ignores). -/
def parseSubExpression : Nat → PM Node
  | 0 => panicF .outOfFuel
  | f + 1 => do
      let unOper ← (do
        match ← acceptType .tkOperator with
        | none => pure (none : Option String)
        | some tok =>
            if tok.value = "*" ∨ tok.value = "&" ∨ tok.value = "-" ∨
               tok.value = "!" ∨ tok.value = "++" ∨ tok.value = "--" ∨
               tok.value = "~" then
              pure (some tok.value)
            else do
              let cur ← token
              throwE (.parseError cur "invalid unary op"))
      let expr ← parsePrimary f
      let expr := match unOper with
        | some op => Node.UnaryNode op expr false
        | none => expr
      let cur ← token
      if cur.kind = .tkOperator ∧ (cur.value = "++" ∨ cur.value = "--") then do
        let expr := Node.UnaryNode cur.value expr true
        _ ← attempt nextToken
        pure expr
      else
        pure expr

/-- parser.go `parsePrimary`: paren, constant or identifier (falling
through on failure without rewinding, as in the source), then at most one
array access or function call suffix (each branch returns immediately). -/
def parsePrimary : Nat → PM Node
  | 0 => panicF .outOfFuel
  | f + 1 => do
      let node ← (do
        match ← attempt (parseParen f) with
        | .ok n => pure n
        | .error _ =>
          match ← attempt parseConstant with
          | .ok n => pure n
          | .error _ =>
            match ← attempt parseIdent with
            | .ok n => pure n
            | .error _ => do
                let cur ← token
                throwE (.parseError cur "expected primary expression"))
      -- Array access
      match ← acceptType .tkOpenBracket with
      | some _ => do
          let index ← parseExpression f
          _ ← expectType .tkCloseBracket
          pure (.ArrayAccessNode node index)
      | none =>
      -- Function call
      match ← acceptType .tkOpenParen with
      | some _ => do
          let cur ← token
          let args ←
            if cur.kind ≠ .tkCloseParen then argsLoop f [] else pure []
          _ ← expectType .tkCloseParen
          pure (.FunctionCallNode node args)
      | none => pure node

/-- The argument loop of parser.go `parsePrimary`: one expression, repeated
while a comma follows. -/
def argsLoop : Nat → List Node → PM (List Node)
  | 0, _ => panicF .outOfFuel
  | f + 1, args => do
      let arg ← parseExpression f
      let args := args ++ [arg]
      match ← acceptType .tkComma with
      | none => pure args
      | some _ => argsLoop f args

/-- parser.go `parseParen`: `( expr )`. -/
def parseParen : Nat → PM Node
  | 0 => panicF .outOfFuel
  | f + 1 => do
      _ ← expectType .tkOpenParen
      let inner ← parseExpression f
      _ ← expectType .tkCloseParen
      pure (.ParenNode inner)

end

/-- parser.go `parseFuncDeclaration`: `name ( var_list ) statement`. -/
def parseFuncDeclaration (f : Nat) : PM Node := do
  let id ← expectType .tkIdent
  _ ← expectType .tkOpenParen
  let params ← parseVariableList f
  _ ← expectType .tkCloseParen
  let stmt ← parseStatement f
  pure (.FunctionNode id.value params stmt)

/-- parser.go `parseTopLevel`: try `parseExternalVariableInit`; a failure
that consumed exactly one token rewinds and tries `parseFuncDeclaration`;
any other failure is the error.  The function alternative in turn fails
hard when it consumed tokens, and otherwise the result is
"expected top level decl". -/
def parseTopLevel (f : Nat) : PM Node := do
  let pos := (← getS).tokIdx
  match ← attempt (parseExternalVariableInit f) with
  | .ok node => pure node
  | .error e => do
      if (← getS).tokIdx = pos + 1 then do
        -- Rewind to previous position if only ident is encountered
        modifyS (fun s => { s with tokIdx := pos })
        match ← attempt (parseFuncDeclaration f) with
        | .ok node => pure node
        | .error e2 => do
            if (← getS).tokIdx ≠ pos then
              throwE e2
            else do
              let cur ← token
              throwE (.parseError cur "expected top level decl")
      else
        -- Otherwise, it is an actual syntax error
        throwE e

/-- The top-level loop of parser.go `Parse`: until `Eof` is accepted, one
top-level declaration, dispatched on its node type; a returned error stops
the loop and is handed back together with the unit accumulated so far. -/
def parseLoop : Nat → TranslationUnit → PM (TranslationUnit × Option GoError)
  | 0, _ => panicF .outOfFuel
  | f + 1, unit => do
      match ← acceptType .tkEof with
      | some _ => pure (unit, none)
      | none => do
          match ← attempt (parseTopLevel f) with
          | .error e => pure (unit, some e)
          | .ok node =>
            match node with
            | .FunctionNode name params body =>
                parseLoop f { unit with
                  Funcs := unit.Funcs ++ [Node.FunctionNode name params body] }
            | .ExternVarInitNode name value =>
                parseLoop f { unit with
                  Vars := unit.Vars ++ [Node.ExternVarInitNode name value] }
            | .ExternVecInitNode name size values =>
                parseLoop f { unit with
                  Vars := unit.Vars ++ [Node.ExternVecInitNode name size values] }
            | _ => do
                let cur ← token
                pure (unit, some (.parseError cur "Thats not a top level decl"))

/-- Result of parser.go `Parse`: the translation unit and error actually
returned, or an escaped (rethrown) panic. -/
inductive ParseResult where
  | ok (unit : TranslationUnit)
  | err (unit : TranslationUnit) (e : GoError)
  | panicked (p : GoPanic)

/-- parser.go `Parse`: run the top-level loop on a fresh unit carrying the
lexer name; the deferred `recover` traps a panic exactly when its payload
is a `*LexError`, replacing the result with an empty unit and that error;
any other panic is rethrown. -/
def Parse (f : Nat) (st : ParserS) : ParseResult × ParserS :=
  match parseLoop f { File := st.name, Funcs := [], Vars := [] } st with
  | (.ok (unit, none), s') => (.ok unit, s')
  | (.ok (unit, some e), s') => (.err unit e, s')
  | (.err e, s') => (.err { File := st.name, Funcs := [], Vars := [] } e, s')
  | (.panic p, s') =>
      match p with
      | .goErr (.lexError le) =>
          (.err { File := "", Funcs := [], Vars := [] } (.lexError le), s')
      | _ => (.panicked p, s')

/-- parser.go `NewParser`: a fresh state with `tokIdx = -1`, then one
`nextToken`; an error there escapes construction as a panic. -/
def NewParser (name : String) (stream : List (Except LexError Token)) :
    Except GoPanic ParserS :=
  match nextToken { name := name, stream := stream, tokens := [], tokIdx := -1 } with
  | (.ok _, s') => .ok s'
  | (.err e, _) => .error (.goErr e)
  | (.panic p, _) => .error p

/-- ast.go `IsExpr` (src/unnamed/part_000): the expression node kinds. -/
def IsExpr (n : Node) : Bool :=
  match n with
  | .ArrayAccessNode _ _ => true
  | .BinaryNode _ _ _ => true
  | .IdentNode _ => true
  | .IntegerNode _ => true
  | .CharacterNode _ => true
  | .FunctionCallNode _ _ => true
  | .ParenNode _ => true
  | .TernaryNode _ _ _ => true
  | .UnaryNode _ _ _ => true
  | _ => false

/-- ast.go `IsStatement` (src/unnamed/part_000): false for every expression
node, then the statement node kinds. -/
def IsStatement (n : Node) : Bool :=
  if IsExpr n then false
  else
    match n with
    | .BlockNode _ => true
    | .BreakNode => true
    | .ExternVarDeclNode _ => true
    | .ExternVarInitNode _ _ => true
    | .ExternVecInitNode _ _ _ => true
    | .FunctionNode _ _ _ => true
    | .GotoNode _ => true
    | .IfNode _ _ _ _ => true
    | .LabelNode _ => true
    | .ReturnNode _ => true
    | .StatementNode _ => true
    | .SwitchNode _ _ _ => true
    | .VarDeclNode _ => true
    | .WhileNode _ _ => true
    | _ => false

/-! Concrete token streams used by the witnesses and counterexamples.
Token lists are written as the lexer of the repository would produce them
from the quoted inputs (spec section 4.1 fixes the lexing of each). -/

/-- An identifier token. -/
def tId (s : String) : Token := ⟨.tkIdent, s⟩

/-- A number token. -/
def tNum (s : String) : Token := ⟨.tkNumber, s⟩

/-- An operator token. -/
def tOp (s : String) : Token := ⟨.tkOperator, s⟩

/-- A keyword token. -/
def tKw (s : String) : Token := ⟨.tkKeyword, s⟩

/-- A semicolon token. -/
def tSemi : Token := ⟨.tkSemicolon, ";"⟩

/-- A colon token. -/
def tColon : Token := ⟨.tkColon, ":"⟩

/-- An opening parenthesis token. -/
def tLP : Token := ⟨.tkOpenParen, "("⟩

/-- A closing parenthesis token. -/
def tRP : Token := ⟨.tkCloseParen, ")"⟩

/-- An opening brace token. -/
def tLB : Token := ⟨.tkOpenBrace, "\x7b"⟩

/-- A closing brace token. -/
def tRB : Token := ⟨.tkCloseBrace, "\x7d"⟩

/-- An opening bracket token. -/
def tLK : Token := ⟨.tkOpenBracket, "["⟩

/-- A closing bracket token. -/
def tRK : Token := ⟨.tkCloseBracket, "]"⟩

/-- A parser state whose whole token stream is already buffered (the form
every state reached from `NewParser` takes once the lexer is drained), with
the current index at the front. -/
def cachedState (toks : List Token) : ParserS :=
  { name := "test", stream := [], tokens := toks, tokIdx := 0 }

/-- The state a drained-lexer `nextToken` call moves to: the index advances;
when it runs past the buffered tokens an `Eof` token is pulled from the
(ended) lexer and appended. -/
def nextS (s : ParserS) : ParserS :=
  if (s.tokIdx + 1).toNat < s.tokens.length then
    { s with tokIdx := s.tokIdx + 1 }
  else
    { s with tokIdx := s.tokIdx + 1, tokens := s.tokens ++ [eofTok] }

/-- The empty translation unit (the Go zero value `TranslationUnit`). -/
def emptyUnit : TranslationUnit := { File := "", Funcs := [], Vars := [] }

/-! Concrete inputs for the claims. -/

/-- Tokens of `v ;` followed by an open paren: the extern-init attempt of
`parseTopLevel` consumes exactly the identifier and fails. -/
def c1FuncState : ParserS := cachedState [tId "v", tLP, tRP, tLB, tRB, eofTok]

/-- Tokens of `v 1 1` : the extern-init attempt consumes more than one
token and fails at the missing semicolon. -/
def c1HardState : ParserS := cachedState [tId "v", tNum "1", tNum "1", eofTok]

/-- Tokens of `f ( ) { } 1` : one good function declaration, then a syntax
error. -/
def c2State : ParserS := cachedState [tId "f", tLP, tRP, tLB, tRB, tNum "1", eofTok]

/-- The translation unit `Parse` hands back for `c2State`: it already
contains the parsed function. -/
def c2Unit : TranslationUnit :=
  { File := "test", Funcs := [Node.FunctionNode "f" [] (Node.BlockNode [])],
    Vars := [] }

/-- The syntax error `Parse` returns for `c2State`. -/
def c2Err : GoError := .parseError (tNum "1") "Expected tkIdent"

/-- Tokens of `a - b - c`. -/
def c3State : ParserS :=
  cachedState [tId "a", tOp "-", tId "b", tOp "-", tId "c", eofTok]

/-- Tokens of `a * b + c`. -/
def c3MulState : ParserS :=
  cachedState [tId "a", tOp "*", tId "b", tOp "+", tId "c", eofTok]

/-- Tokens of `a = b = c`. -/
def c3AsgState : ParserS :=
  cachedState [tId "a", tOp "=", tId "b", tOp "=", tId "c", eofTok]

/-- The right-associated tree the parser returns for `a - b - c`. -/
def c3Right : Node :=
  .BinaryNode (.IdentNode "a") "-"
    (.BinaryNode (.IdentNode "b") "-" (.IdentNode "c"))

/-- The left-associated tree the claim expects for `a - b - c`. -/
def c3Left : Node :=
  .BinaryNode (.BinaryNode (.IdentNode "a") "-" (.IdentNode "b")) "-"
    (.IdentNode "c")

/-- Tokens of `a [ 1 ] [ 2 ] ;`. -/
def c4aState : ParserS :=
  cachedState [tId "a", tLK, tNum "1", tRK, tLK, tNum "2", tRK, tSemi, eofTok]

/-- Tokens of `f ( x ) ( y ) ;`. -/
def c4bState : ParserS :=
  cachedState [tId "f", tLP, tId "x", tRP, tLP, tId "y", tRP, tSemi, eofTok]

/-- Tokens of `a [ i ] ( x ) ;`. -/
def c4cState : ParserS :=
  cachedState [tId "a", tLK, tId "i", tRK, tLP, tId "x", tRP, tSemi, eofTok]

/-- Tokens of `v ;` (scalar extern initializer with no value). -/
def c5State : ParserS := cachedState [tId "v", tSemi, eofTok]

/-- Tokens of `w ;`, used to witness the general default-value rule. -/
def c5WState : ParserS := cachedState [tId "w", tSemi, eofTok]

/-- Tokens of `{ foo : bar ; }`. -/
def c6LabelState : ParserS :=
  cachedState [tLB, tId "foo", tColon, tId "bar", tSemi, tRB, eofTok]

/-- Tokens of `{ foo ( ) ; }`. -/
def c6CallState : ParserS :=
  cachedState [tLB, tId "foo", tLP, tRP, tSemi, tRB, eofTok]

/-- Tokens of `x : …`, used to witness the label case of `parseStatement`. -/
def c6WState : ParserS := cachedState [tId "x", tColon, tSemi, eofTok]

/-- Tokens of `switch ( x ) { default : default : ; }`. -/
def c7Toks : List Token :=
  [tKw "switch", tLP, tId "x", tRP, tLB, tKw "default", tColon,
   tKw "default", tColon, tSemi, tRB, eofTok]

/-- The `c7Toks` buffer with the index at `i`. -/
def c7At (i : Int) : ParserS :=
  { name := "test", stream := [], tokens := c7Toks, tokIdx := i }

/-- State used to witness the accept/expect equivalence. -/
def c8State : ParserS := cachedState [tNum "1", eofTok]

/-- The lex error used in the C9 inputs. -/
def c9Lex : LexError := ⟨⟨.tkError, "bad"⟩, "bad"⟩

/-- A parser whose next lexer answer is a lex error, reached through
`accept` (trapped by `Parse`). -/
def c9TrapSt : ParserS :=
  { name := "t", stream := [.error c9Lex], tokens := [tId "v"], tokIdx := 0 }

/-- A parser that meets the lex error at the `nextToken` call of
`expectOneOf`, whose error is discarded; tokens: `v 1 <lexerror>`. -/
def c9CrashSt : ParserS :=
  { name := "t", stream := [.ok (tNum "1"), .error c9Lex],
    tokens := [tId "v"], tokIdx := 0 }

/-! Application lemmas for the monad operations, used to evaluate the
parser symbolically. -/

/-- Application of a bind. -/
@[simp] theorem bind_app (m : PM α) (g : α → PM β) (s : ParserS) :
    (m >>= g) s =
      (match m s with
       | (.ok a, s') => g a s'
       | (.err e, s') => (.err e, s')
       | (.panic p, s') => (.panic p, s')) := rfl

/-- Application of a pure value. -/
@[simp] theorem pure_app (a : α) (s : ParserS) :
    (pure a : PM α) s = (.ok a, s) := rfl

/-- Application of a thrown error. -/
@[simp] theorem throwE_app (e : GoError) (s : ParserS) :
    (throwE e : PM α) s = (.err e, s) := rfl

/-- Application of a panic. -/
@[simp] theorem panicF_app (p : GoPanic) (s : ParserS) :
    (panicF p : PM α) s = (.panic p, s) := rfl

/-- Application of the state read. -/
@[simp] theorem getS_app (s : ParserS) : getS s = (.ok s, s) := rfl

/-- Application of the state write. -/
@[simp] theorem setS_app (s' s : ParserS) : setS s' s = (.ok (), s') := rfl

/-- Application of the state update. -/
@[simp] theorem modifyS_app (g : ParserS → ParserS) (s : ParserS) :
    modifyS g s = (.ok (), g s) := rfl

/-- Application of an error observation. -/
@[simp] theorem attempt_app (m : PM α) (s : ParserS) :
    attempt m s =
      (match m s with
       | (.ok a, s') => (.ok (.ok a), s')
       | (.err e, s') => (.ok (.error e), s')
       | (.panic p, s') => (.panic p, s')) := rfl

end Gob

namespace Gob

/-! Helper lemmas about the parser primitives. -/

/-- Reading the current token never changes the parser state. -/
theorem token_snd (s : ParserS) : (token s).2 = s := by
  unfold token tokenAt
  split <;> rfl

/-- A successful current-token read returns the state unchanged. -/
theorem token_ok (s : ParserS) (c : Token) (h : (token s).1 = PRes.ok c) :
    token s = (PRes.ok c, s) := by
  have hp : token s = ((token s).1, (token s).2) := rfl
  rw [hp, h, token_snd]

/-- `accept` on a current token failing the kind or value test returns
nothing and leaves the state unchanged. -/
theorem accept_none (t : TokenType) (v : String) (s : ParserS) (c : Token)
    (htok : (token s).1 = PRes.ok c)
    (h : ¬(c.kind = t ∧ (v = "" ∨ v = c.value))) :
    accept t v s = (PRes.ok none, s) := by
  unfold accept
  rw [token_ok s c htok]
  by_cases hk : c.kind = t
  · have hv : ¬(v = "" ∨ v = c.value) := fun hv => h ⟨hk, hv⟩
    simp only [hk, if_true, hv, if_false]
  · simp only [hk, if_false]

/-- `accept` on a current token passing the kind and value test consumes it
through `nextToken`. -/
theorem accept_some (t : TokenType) (v : String) (s : ParserS) (c : Token)
    (htok : (token s).1 = PRes.ok c)
    (hk : c.kind = t) (hv : v = "" ∨ v = c.value) :
    accept t v s =
      (match nextToken s with
       | (.ok _, s2) => (PRes.ok (some c), s2)
       | (.err e, s2) => (PRes.panic (.goErr e), s2)
       | (.panic p, s2) => (PRes.panic p, s2)) := by
  unfold accept
  rw [token_ok s c htok]
  simp only [hk, if_true, hv, if_true]

/-- A failed `accept` makes `expect` report a parse error at the current
token, still without moving. -/
theorem expect_err (t : TokenType) (v : String) (s : ParserS) (c : Token)
    (htok : (token s).1 = PRes.ok c)
    (ha : accept t v s = (PRes.ok none, s)) :
    ∃ msg, expect t v s = (PRes.err (.parseError c msg), s) := by
  have hts := token_ok s c htok
  by_cases hv : v = ""
  · subst hv
    refine ⟨"Expected " ++ t.str, ?_⟩
    simp only [expect, ha, hts]
    split
    · rfl
    · exact absurd trivial (by assumption)
  · refine ⟨"Expected (" ++ t.str ++ ": " ++ v ++ ")", ?_⟩
    simp only [expect, ha, hts]
    split
    · exact absurd (by assumption) hv
    · rfl

/-- A successful `accept` makes `expect` return the same token and state. -/
theorem expect_of_accept (t : TokenType) (v : String) (s s' : ParserS)
    (tok : Token) (ha : accept t v s = (PRes.ok (some tok), s')) :
    expect t v s = (PRes.ok tok, s') := by
  simp only [expect, ha]

/-- A returned error of `accept` propagates through `expect`. -/
theorem expect_of_accept_err (t : TokenType) (v : String) (s s' : ParserS)
    (e : GoError) (ha : accept t v s = (PRes.err e, s')) :
    expect t v s = (PRes.err e, s') := by
  simp only [expect, ha]

/-- A panic of `accept` propagates through `expect`. -/
theorem expect_of_accept_panic (t : TokenType) (v : String) (s s' : ParserS)
    (p : GoPanic) (ha : accept t v s = (PRes.panic p, s')) :
    expect t v s = (PRes.panic p, s') := by
  simp only [expect, ha]

/-- The index after a drained-lexer step. -/
theorem nextS_tokIdx (s : ParserS) : (nextS s).tokIdx = s.tokIdx + 1 := by
  unfold nextS
  split <;> rfl

/-- A drained-lexer step keeps the stream empty. -/
theorem nextS_stream (s : ParserS) : (nextS s).stream = s.stream := by
  unfold nextS
  split <;> rfl

/-- With the lexer drained, `nextToken` returns the token at the next index
(an appended `Eof` when the buffer has run out) and moves to `nextS`. -/
theorem nextToken_cached (s : ParserS) (hs : s.stream = [])
    (h0 : 0 ≤ s.tokIdx) :
    nextToken s =
      (PRes.ok (s.tokens.getD (s.tokIdx + 1).toNat eofTok), nextS s) := by
  unfold nextToken nextS
  by_cases hlt : (s.tokIdx + 1).toNat < s.tokens.length
  · rw [dif_pos ⟨by omega, hlt⟩, if_pos hlt,
      show s.tokens.get ⟨(s.tokIdx + 1).toNat, hlt⟩ =
        s.tokens.getD (s.tokIdx + 1).toNat eofTok from
        (List.getD_eq_getElem s.tokens eofTok hlt).symm]
  · rw [dif_neg (fun hc => hlt hc.2), if_neg hlt]
    have hge : ¬(s.tokIdx + 1 < (s.tokens.length : Int)) := by omega
    rw [if_neg hge, hs,
      show s.tokens.getD (s.tokIdx + 1).toNat eofTok = eofTok from
        List.getD_eq_default s.tokens eofTok (by omega)]

/-- With the lexer drained, a matching `accept` returns the current token
and steps to `nextS`. -/
theorem accept_consume (t : TokenType) (v : String) (s : ParserS) (c : Token)
    (hs : s.stream = []) (h0 : 0 ≤ s.tokIdx)
    (htok : (token s).1 = PRes.ok c)
    (hk : c.kind = t) (hv : v = "" ∨ v = c.value) :
    accept t v s = (PRes.ok (some c), nextS s) := by
  rw [accept_some t v s c htok hk hv, nextToken_cached s hs h0]

/-- The current token after a drained-lexer step, when the step started in
range: the token at the next index, or the freshly appended `Eof`. -/
theorem token_nextS (s : ParserS) (h0 : 0 ≤ s.tokIdx)
    (hlen : s.tokIdx.toNat < s.tokens.length) :
    token (nextS s) =
      (PRes.ok (s.tokens.getD (s.tokIdx + 1).toNat eofTok), nextS s) := by
  unfold token tokenAt nextS
  by_cases hlt : (s.tokIdx + 1).toNat < s.tokens.length
  · rw [if_pos hlt]
    rw [dif_pos (show (0 : Int) ≤ s.tokIdx + 1 ∧
        (s.tokIdx + 1).toNat < s.tokens.length from ⟨by omega, hlt⟩)]
    rw [show s.tokens.get ⟨(s.tokIdx + 1).toNat, hlt⟩ =
        s.tokens.getD (s.tokIdx + 1).toNat eofTok from
        (List.getD_eq_getElem s.tokens eofTok hlt).symm]
  · rw [if_neg hlt]
    have hidx : (s.tokIdx + 1).toNat = s.tokens.length := by omega
    have hlt2 : (s.tokIdx + 1).toNat < (s.tokens ++ [eofTok]).length := by
      rw [List.length_append, List.length_singleton]
      omega
    rw [dif_pos (show (0 : Int) ≤ s.tokIdx + 1 ∧
        (s.tokIdx + 1).toNat < (s.tokens ++ [eofTok]).length from
        ⟨by omega, hlt2⟩)]
    have happD : (s.tokens ++ [eofTok]).getD (s.tokIdx + 1).toNat eofTok =
        eofTok := by
      rw [List.getD_append_right s.tokens [eofTok] eofTok _ (by omega)]
      rw [show (s.tokIdx + 1).toNat - s.tokens.length = 0 from by omega]
      rfl
    have hgetapp : (s.tokens ++ [eofTok]).get ⟨(s.tokIdx + 1).toNat, hlt2⟩ =
        eofTok :=
      (List.get_eq_getElem _ _).trans
        (((List.getD_eq_getElem (s.tokens ++ [eofTok]) eofTok hlt2).symm).trans
          happD)
    rw [hgetapp,
      show s.tokens.getD (s.tokIdx + 1).toNat eofTok = eofTok from
        List.getD_eq_default s.tokens eofTok (by omega)]

/-- The statement alternatives of `parseStatement` beginning with a keyword
or brace `expect` fail without consuming when the current token does not
match: `parseIf`. -/
theorem parseIf_fail (f : Nat) (s : ParserS) (c : Token)
    (htok : (token s).1 = PRes.ok c) (hk : c.kind ≠ .tkKeyword) :
    ∃ e, parseIf (f + 1) s = (PRes.err e, s) := by
  have ha := accept_none .tkKeyword "if" s c htok (fun hc => hk hc.1)
  obtain ⟨msg, he⟩ := expect_err .tkKeyword "if" s c htok ha
  refine ⟨.parseError c msg, ?_⟩
  rw [parseIf]
  simp only [bind_app, he]

/-- Clean failure of the `parseBlock` alternative on a non-brace token. -/
theorem parseBlock_fail (f : Nat) (s : ParserS) (c : Token)
    (htok : (token s).1 = PRes.ok c) (hk : c.kind ≠ .tkOpenBrace) :
    ∃ e, parseBlock (f + 1) s = (PRes.err e, s) := by
  have ha := accept_none .tkOpenBrace "" s c htok (fun hc => hk hc.1)
  obtain ⟨msg, he⟩ := expect_err .tkOpenBrace "" s c htok ha
  refine ⟨.parseError c msg, ?_⟩
  rw [parseBlock]
  simp only [bind_app, expectType, he]

/-- Clean failure of the `parseVarDecl` alternative on a non-keyword. -/
theorem parseVarDecl_fail (f : Nat) (s : ParserS) (c : Token)
    (htok : (token s).1 = PRes.ok c) (hk : c.kind ≠ .tkKeyword) :
    ∃ e, parseVarDecl f s = (PRes.err e, s) := by
  have ha := accept_none .tkKeyword "auto" s c htok (fun hc => hk hc.1)
  obtain ⟨msg, he⟩ := expect_err .tkKeyword "auto" s c htok ha
  refine ⟨.parseError c msg, ?_⟩
  simp only [parseVarDecl, bind_app, he]

/-- Clean failure of the `parseExternVarDecl` alternative on a
non-keyword. -/
theorem parseExternVarDecl_fail (f : Nat) (s : ParserS) (c : Token)
    (htok : (token s).1 = PRes.ok c) (hk : c.kind ≠ .tkKeyword) :
    ∃ e, parseExternVarDecl f s = (PRes.err e, s) := by
  have ha := accept_none .tkKeyword "extrn" s c htok (fun hc => hk hc.1)
  obtain ⟨msg, he⟩ := expect_err .tkKeyword "extrn" s c htok ha
  refine ⟨.parseError c msg, ?_⟩
  simp only [parseExternVarDecl, bind_app, he]

/-- Clean failure of the `parseWhile` alternative on a non-keyword. -/
theorem parseWhile_fail (f : Nat) (s : ParserS) (c : Token)
    (htok : (token s).1 = PRes.ok c) (hk : c.kind ≠ .tkKeyword) :
    ∃ e, parseWhile (f + 1) s = (PRes.err e, s) := by
  have ha := accept_none .tkKeyword "while" s c htok (fun hc => hk hc.1)
  obtain ⟨msg, he⟩ := expect_err .tkKeyword "while" s c htok ha
  refine ⟨.parseError c msg, ?_⟩
  rw [parseWhile]
  simp only [bind_app, he]

/-- Clean failure of the `parseSwitch` alternative on a non-keyword. -/
theorem parseSwitch_fail (f : Nat) (s : ParserS) (c : Token)
    (htok : (token s).1 = PRes.ok c) (hk : c.kind ≠ .tkKeyword) :
    ∃ e, parseSwitch (f + 1) s = (PRes.err e, s) := by
  have ha := accept_none .tkKeyword "switch" s c htok (fun hc => hk hc.1)
  obtain ⟨msg, he⟩ := expect_err .tkKeyword "switch" s c htok ha
  refine ⟨.parseError c msg, ?_⟩
  rw [parseSwitch]
  simp only [bind_app, he]

/-- An alternative that fails without consuming falls through `tryStmt`. -/
theorem tryStmt_fail (pos : Int) (m k : PM Node) (s : ParserS) (e : GoError)
    (hm : m s = (PRes.err e, s)) (hpos : pos = s.tokIdx) :
    tryStmt pos m k s = k s := by
  simp [tryStmt, bind_app, attempt_app, getS_app, hm, hpos]

/-- A successful alternative is the result of `tryStmt`. -/
theorem tryStmt_ok (pos : Int) (m k : PM Node) (s s' : ParserS) (n : Node)
    (hm : m s = (PRes.ok n, s')) :
    tryStmt pos m k s = (PRes.ok n, s') := by
  simp [tryStmt, bind_app, attempt_app, hm]

/-! The claims. -/

/-- C8: for every parser state, kind and value, `accept` returns a token
exactly when `expect` returns that same token with the same final state;
and an `accept` that returns nothing leaves the parser state unchanged. -/
theorem claim_C8_accept_expect (t : TokenType) (v : String) (s : ParserS) :
    (∀ tok s', accept t v s = (PRes.ok (some tok), s') ↔
      expect t v s = (PRes.ok tok, s')) ∧
    (∀ s', accept t v s = (PRes.ok none, s') → s' = s) := by
  rcases htp : token s with ⟨r, s₁⟩
  have hs₁ : s₁ = s := by
    have h2 := token_snd s
    rw [htp] at h2
    exact h2
  rw [hs₁] at htp
  clear hs₁
  cases r with
  | err e =>
      have hacc : accept t v s = (PRes.err e, s) := by
        unfold accept
        rw [htp]
      have hexp := expect_of_accept_err t v s s e hacc
      constructor
      · intro tok s'
        rw [hacc, hexp]
        constructor
        · intro h
          exact absurd (congrArg Prod.fst h) (fun hh => PRes.noConfusion hh)
        · intro h
          exact absurd (congrArg Prod.fst h) (fun hh => PRes.noConfusion hh)
      · intro s' h
        rw [hacc] at h
        exact absurd (congrArg Prod.fst h) (fun hh => PRes.noConfusion hh)
  | panic p =>
      have hacc : accept t v s = (PRes.panic p, s) := by
        unfold accept
        rw [htp]
      have hexp := expect_of_accept_panic t v s s p hacc
      constructor
      · intro tok s'
        rw [hacc, hexp]
        constructor
        · intro h
          exact absurd (congrArg Prod.fst h) (fun hh => PRes.noConfusion hh)
        · intro h
          exact absurd (congrArg Prod.fst h) (fun hh => PRes.noConfusion hh)
      · intro s' h
        rw [hacc] at h
        exact absurd (congrArg Prod.fst h) (fun hh => PRes.noConfusion hh)
  | ok cur =>
      have htok1 : (token s).1 = PRes.ok cur := by rw [htp]
      by_cases hcond : cur.kind = t ∧ (v = "" ∨ v = cur.value)
      · have hacc0 := accept_some t v s cur htok1 hcond.1 hcond.2
        rcases hn : nextToken s with ⟨r2, s₂⟩
        rw [hn] at hacc0
        cases r2 with
        | ok tk =>
            have hacc : accept t v s = (PRes.ok (some cur), s₂) := by
              rw [hacc0]
            have hexp := expect_of_accept t v s s₂ cur hacc
            constructor
            · intro tok s'
              rw [hacc, hexp]
              constructor
              · intro h
                have h1 : cur = tok := Option.some.inj (PRes.ok.inj (congrArg Prod.fst h))
                have h2 : s₂ = s' := congrArg Prod.snd h
                rw [h1, h2]
              · intro h
                have h1 : cur = tok := PRes.ok.inj (congrArg Prod.fst h)
                have h2 : s₂ = s' := congrArg Prod.snd h
                rw [h1, h2]
            · intro s' h
              rw [hacc] at h
              exact absurd (PRes.ok.inj (congrArg Prod.fst h))
                (fun hh => Option.noConfusion hh)
        | err e2 =>
            have hacc : accept t v s = (PRes.panic (.goErr e2), s₂) := by
              rw [hacc0]
            have hexp := expect_of_accept_panic t v s s₂ _ hacc
            constructor
            · intro tok s'
              rw [hacc, hexp]
              constructor
              · intro h
                exact absurd (congrArg Prod.fst h) (fun hh => PRes.noConfusion hh)
              · intro h
                exact absurd (congrArg Prod.fst h) (fun hh => PRes.noConfusion hh)
            · intro s' h
              rw [hacc] at h
              exact absurd (congrArg Prod.fst h) (fun hh => PRes.noConfusion hh)
        | panic p2 =>
            have hacc : accept t v s = (PRes.panic p2, s₂) := by
              rw [hacc0]
            have hexp := expect_of_accept_panic t v s s₂ _ hacc
            constructor
            · intro tok s'
              rw [hacc, hexp]
              constructor
              · intro h
                exact absurd (congrArg Prod.fst h) (fun hh => PRes.noConfusion hh)
              · intro h
                exact absurd (congrArg Prod.fst h) (fun hh => PRes.noConfusion hh)
            · intro s' h
              rw [hacc] at h
              exact absurd (congrArg Prod.fst h) (fun hh => PRes.noConfusion hh)
      · have hacc := accept_none t v s cur htok1 hcond
        obtain ⟨msg, hexp⟩ := expect_err t v s cur htok1 hacc
        constructor
        · intro tok s'
          rw [hacc, hexp]
          constructor
          · intro h
            exact absurd (PRes.ok.inj (congrArg Prod.fst h))
              (fun hh => Option.noConfusion hh)
          · intro h
            exact absurd (congrArg Prod.fst h) (fun hh => PRes.noConfusion hh)
        · intro s' h
          rw [hacc] at h
          exact (congrArg Prod.snd h).symm

/-- C8 witness: the equivalence evaluated on a matching number token. -/
theorem claim_C8_witness :
    expect .tkNumber "1" c8State =
      (PRes.ok (tNum "1"), { c8State with tokIdx := 1 }) :=
  ((claim_C8_accept_expect .tkNumber "1" c8State).1 (tNum "1")
    { c8State with tokIdx := 1 }).mp rfl

/-- C10: no AST node is classified both as an expression by `IsExpr` and as
a statement by `IsStatement`. -/
theorem claim_C10_IsExpr_IsStatement_exclusive :
    ∀ n : Node, (IsExpr n && IsStatement n) = false := by
  intro n
  cases n <;> rfl

/-- C1: `parseTopLevel` first tries the external variable initializer; on
success that is its result.  If the attempt failed having consumed exactly
one token (the leading identifier), the index is rewound to the saved
position and the function-declaration alternative is run from the rewound
state, its success or its consuming failure becoming the result.  If the
attempt failed having consumed more than one token, that syntax error is
returned without trying the function alternative. -/
theorem claim_C1_parseTopLevel_backtracking (f : Nat) (s : ParserS) :
    (∀ n s₁, parseExternalVariableInit f s = (PRes.ok n, s₁) →
        parseTopLevel f s = (PRes.ok n, s₁)) ∧
    (∀ e s₁, parseExternalVariableInit f s = (PRes.err e, s₁) →
        s₁.tokIdx = s.tokIdx + 1 →
        (∀ n s₂,
          parseFuncDeclaration f { s₁ with tokIdx := s.tokIdx } =
            (PRes.ok n, s₂) →
          parseTopLevel f s = (PRes.ok n, s₂)) ∧
        (∀ e2 s₂,
          parseFuncDeclaration f { s₁ with tokIdx := s.tokIdx } =
            (PRes.err e2, s₂) →
          s₂.tokIdx ≠ s.tokIdx →
          parseTopLevel f s = (PRes.err e2, s₂))) ∧
    (∀ e s₁, parseExternalVariableInit f s = (PRes.err e, s₁) →
        s.tokIdx + 1 < s₁.tokIdx →
        parseTopLevel f s = (PRes.err e, s₁)) := by
  refine ⟨?_, ?_, ?_⟩
  · intro n s₁ h
    simp [parseTopLevel, bind_app, getS_app, attempt_app, h]
  · intro e s₁ h hidx
    constructor
    · intro n s₂ h2
      simp [parseTopLevel, bind_app, getS_app, attempt_app, modifyS_app,
        h, hidx, h2]
    · intro e2 s₂ h2 hne
      simp [parseTopLevel, bind_app, getS_app, attempt_app, modifyS_app,
        throwE_app, h, hidx, h2, hne]
  · intro e s₁ h hgt
    have hno : ¬(s₁.tokIdx = s.tokIdx + 1) := by omega
    simp [parseTopLevel, bind_app, getS_app, attempt_app, throwE_app, h, hno]

/-- C1 witness: on `v ( ) { }` the extern-init attempt consumes exactly the
identifier and fails, and the rewound function alternative succeeds; on
`v 1 1` the attempt consumes two tokens and its error is final. -/
theorem claim_C1_witness :
    parseTopLevel 10 c1FuncState =
      (PRes.ok (.FunctionNode "v" [] (.BlockNode [])),
       { c1FuncState with tokIdx := 5 }) ∧
    parseTopLevel 10 c1HardState =
      (PRes.err (.parseError (tNum "1") "Expected tkSemicolon"),
       { c1HardState with tokIdx := 2 }) :=
  ⟨((claim_C1_parseTopLevel_backtracking 10 c1FuncState).2.1 _ _
      rfl rfl).1 _ _ rfl,
   (claim_C1_parseTopLevel_backtracking 10 c1HardState).2.2 _ _
      rfl (by decide)⟩

/-- C2 counterexample: on input `f ( ) { } 1` the parse fails with a syntax
error, but `Parse` returns a unit that already contains the parsed
function, not the empty unit the claim demands. -/
theorem claim_C2_counterexample :
    (Parse 20 c2State).1 = ParseResult.err c2Unit c2Err ∧
    c2Unit.Funcs.length = 1 := ⟨rfl, rfl⟩

/-- C2 amended: parsing is fail-fast: the first syntax error stops the
top-level loop and `Parse` returns that error together with the
translation unit accumulated so far, which keeps every declaration parsed
before the error (it need not be empty). -/
theorem claim_C2_amended (f : Nat) (s : ParserS) (u : TranslationUnit)
    (e : GoError) (s' : ParserS)
    (h : parseLoop f { File := s.name, Funcs := [], Vars := [] } s =
      (PRes.ok (u, some e), s')) :
    Parse f s = (ParseResult.err u e, s') := by
  unfold Parse
  rw [h]

/-- C2 witness: the amended statement evaluated on `c2State`. -/
theorem claim_C2_witness :
    Parse 20 c2State =
      (ParseResult.err c2Unit c2Err,
       (parseLoop 20 { File := "test", Funcs := [], Vars := [] } c2State).2) :=
  claim_C2_amended 20 c2State c2Unit c2Err _ rfl

/-- C3 counterexample: on `a - b - c`, two binary operators of the same
precedence level, `parseExpression` produces the right-associated tree,
which differs from the left-associated tree the claim requires. -/
theorem claim_C3_counterexample :
    (parseExpression 10 c3State).1 = PRes.ok c3Right ∧
    (c3Right = c3Left) = False := by
  refine ⟨rfl, eq_false ?_⟩
  intro h
  have h' : Node.BinaryNode (.IdentNode "a") "-"
        (.BinaryNode (.IdentNode "b") "-" (.IdentNode "c")) =
      Node.BinaryNode (.BinaryNode (.IdentNode "a") "-" (.IdentNode "b")) "-"
        (.IdentNode "c") := h
  injection h' with h1 h2 h3
  exact Node.noConfusion h1

/-- C3 amended: `parseExpression` resolves two adjacent binary operators by
the local rotation of the source: operators of equal precedence associate
to the right (`a - b - c` gives `Binary(a, -, Binary(b, -, c))`, and
likewise assignment `a = b = c`); only when the first operator binds
strictly tighter does the rotation produce a left-nested node
(`a * b + c` gives `Binary(Binary(a, *, b), +, c)`). -/
theorem claim_C3_amended :
    (parseExpression 10 c3State).1 = PRes.ok c3Right ∧
    (parseExpression 10 c3MulState).1 =
      PRes.ok (.BinaryNode (.BinaryNode (.IdentNode "a") "*" (.IdentNode "b"))
        "+" (.IdentNode "c")) ∧
    (parseExpression 10 c3AsgState).1 =
      PRes.ok (.BinaryNode (.IdentNode "a") "="
        (.BinaryNode (.IdentNode "b") "=" (.IdentNode "c"))) :=
  ⟨rfl, rfl, rfl⟩

/-- C4 counterexample: on `a [ 1 ] [ 2 ] ;` `parsePrimary` stops after the
first suffix: it returns the single `ArrayAccess(a, 1)` with the index
parked on the second `[` (position 4), and that node differs from the
nested chain the claim requires. -/
theorem claim_C4_counterexample :
    (parsePrimary 10 c4aState).1 =
      PRes.ok (.ArrayAccessNode (.IdentNode "a") (.IntegerNode 1)) ∧
    (parsePrimary 10 c4aState).2.tokIdx = 4 ∧
    ((Node.ArrayAccessNode (.IdentNode "a") (.IntegerNode 1) : Node) =
      .ArrayAccessNode (.ArrayAccessNode (.IdentNode "a") (.IntegerNode 1))
        (.IntegerNode 2)) = False := by
  refine ⟨rfl, rfl, eq_false ?_⟩
  intro h
  injection h with h1 h2
  exact Node.noConfusion h1

/-- C4 amended: `parsePrimary` applies at most one postfix suffix to a
primary expression: after a single array access or a single call it
returns at once, so in `a[1][2]`, `f(x)(y)` and `a[i](x)` only the first
suffix is consumed (the index stops at position 4 in each case). -/
theorem claim_C4_amended :
    (parsePrimary 10 c4aState).1 =
      PRes.ok (.ArrayAccessNode (.IdentNode "a") (.IntegerNode 1)) ∧
    (parsePrimary 10 c4aState).2.tokIdx = 4 ∧
    (parsePrimary 10 c4bState).1 =
      PRes.ok (.FunctionCallNode (.IdentNode "f") [.IdentNode "x"]) ∧
    (parsePrimary 10 c4bState).2.tokIdx = 4 ∧
    (parsePrimary 10 c4cState).1 =
      PRes.ok (.ArrayAccessNode (.IdentNode "a") (.IdentNode "i")) ∧
    (parsePrimary 10 c4cState).2.tokIdx = 4 :=
  ⟨rfl, rfl, rfl, rfl, rfl, rfl⟩

/-- C5: an external scalar declaration with no initializer defaults its
value to `Integer 0`.  Generally: when, after the identifier, no `[`
follows, the constant parse fails, and a semicolon is accepted, the
function returns `ExternVarInit(name, Integer 0)`; concretely, `v ;`
parses to a unit whose only global is `ExternVarInit("v", Integer 0)`. -/
theorem claim_C5_extern_default_zero :
    (∀ (f : Nat) (s s₁ s₂ s₃ : ParserS) (c c2 : Token) (e : GoError),
      expectType .tkIdent s = (PRes.ok c, s₁) →
      acceptType .tkOpenBracket s₁ = (PRes.ok none, s₁) →
      parseConstant s₁ = (PRes.err e, s₂) →
      expectType .tkSemicolon s₂ = (PRes.ok c2, s₃) →
      parseExternalVariableInit f s =
        (PRes.ok (.ExternVarInitNode c.value (.IntegerNode 0)), s₃)) ∧
    (Parse 20 c5State).1 =
      ParseResult.ok { File := "test", Funcs := [],
                       Vars := [.ExternVarInitNode "v" (.IntegerNode 0)] } := by
  constructor
  · intro f s s₁ s₂ s₃ c c2 e h1 h2 h3 h4
    simp [parseExternalVariableInit, bind_app, attempt_app, h1, h2, h3, h4]
  · rfl

/-- C5 witness: the general default rule applied to the input `w ;`. -/
theorem claim_C5_witness :
    parseExternalVariableInit 10 c5WState =
      (PRes.ok (.ExternVarInitNode "w" (.IntegerNode 0)),
       { c5WState with tokIdx := 2 }) :=
  claim_C5_extern_default_zero.1 10 c5WState _ _ _ _ _ _ rfl rfl rfl rfl

/-- C7: evaluation at the failing input: because the first `default` group
is empty, the nil-slice guard in `parseSwitch` does not fire and the second
`default` label is accepted, so `switch ( x ) { default : default : ; }`
parses successfully (to a Switch whose default case holds the null
statement) instead of raising the multiple-default syntax error. -/
theorem claim_C7_two_defaults_accepted :
    parseSwitch 20 (c7At 0) =
      (PRes.ok (.SwitchNode (.IdentNode "x") [] [.NullNode]), c7At 11) := by
  have hB : switchStmtsLoop 17 [] (c7At 9) = (.ok [.NullNode], c7At 10) := by
    rfl
  have h17 : switchLoop 17 [] [.NullNode] (c7At 10) =
      (.ok ([], [.NullNode]), c7At 11) := by rfl
  have h18 : switchLoop 18 [] [] (c7At 7) =
      (.ok ([], [.NullNode]), c7At 11) := by
    rw [show (18 : Nat) = 17 + 1 from rfl, switchLoop]
    simp only [bind_app, pure_app, hB, h17,
      show acceptType .tkCloseBrace (c7At 7) = (.ok none, c7At 7) from rfl,
      show accept .tkKeyword "case" (c7At 7) = (.ok none, c7At 7) from rfl,
      show accept .tkKeyword "default" (c7At 7) =
        (.ok (some (tKw "default")), c7At 8) from rfl,
      show expectType .tkColon (c7At 8) = (.ok tColon, c7At 9) from rfl]
  have hA : switchStmtsLoop 18 [] (c7At 7) = (.ok [], c7At 7) := by rfl
  have h19 : switchLoop 19 [] [] (c7At 5) =
      (.ok ([], [.NullNode]), c7At 11) := by
    rw [show (19 : Nat) = 18 + 1 from rfl, switchLoop]
    simp only [bind_app, pure_app, hA, h18,
      show acceptType .tkCloseBrace (c7At 5) = (.ok none, c7At 5) from rfl,
      show accept .tkKeyword "case" (c7At 5) = (.ok none, c7At 5) from rfl,
      show accept .tkKeyword "default" (c7At 5) =
        (.ok (some (tKw "default")), c7At 6) from rfl,
      show expectType .tkColon (c7At 6) = (.ok tColon, c7At 7) from rfl]
  rw [show (20 : Nat) = 19 + 1 from rfl, parseSwitch]
  simp only [bind_app, pure_app, h19,
    show expect .tkKeyword "switch" (c7At 0) =
      (.ok (tKw "switch"), c7At 1) from rfl,
    show expectType .tkOpenParen (c7At 1) = (.ok tLP, c7At 2) from rfl,
    show parseExpression 19 (c7At 2) = (.ok (.IdentNode "x"), c7At 3) from rfl,
    show expectType .tkCloseParen (c7At 3) = (.ok tRP, c7At 4) from rfl,
    show expectType .tkOpenBrace (c7At 4) = (.ok tLB, c7At 5) from rfl]

/-- C6: in `parseStatement`, when the current token is an identifier (the
earlier alternatives then all fail silently), the next token decides: `:`
yields `Label(name)`, `;` yields `ExprStmt(Ident name)`, and anything else
rewinds the identifier and continues with the expression-statement tail of
the function.  Concretely, `{ foo : bar ; }` parses to
`[Label "foo", ExprStmt (Ident "bar")]` and `{ foo ( ) ; }` to
`[ExprStmt (FunctionCall (Ident "foo") [])]`. -/
theorem claim_C6_label_ident_expr (f : Nat) (s : ParserS) (c : Token)
    (hstream : s.stream = []) (h0 : 0 ≤ s.tokIdx)
    (hlen : s.tokIdx.toNat < s.tokens.length)
    (hcur : s.tokens.getD s.tokIdx.toNat eofTok = c)
    (hkind : c.kind = .tkIdent) :
    ((s.tokens.getD (s.tokIdx + 1).toNat eofTok).kind = .tkColon →
      (parseStatement (f + 2) s).1 = PRes.ok (.LabelNode c.value) ∧
      (parseStatement (f + 2) s).2.tokIdx = s.tokIdx + 2) ∧
    ((s.tokens.getD (s.tokIdx + 1).toNat eofTok).kind = .tkSemicolon →
      (parseStatement (f + 2) s).1 =
        PRes.ok (.StatementNode (.IdentNode c.value)) ∧
      (parseStatement (f + 2) s).2.tokIdx = s.tokIdx + 2) ∧
    ((s.tokens.getD (s.tokIdx + 1).toNat eofTok).kind ≠ .tkColon →
     (s.tokens.getD (s.tokIdx + 1).toNat eofTok).kind ≠ .tkSemicolon →
      parseStatement (f + 2) s =
        stmtExprTail (f + 1) s.tokIdx
          { (acceptType .tkIdent s).2 with tokIdx := s.tokIdx }) ∧
    (parseBlock 20 c6LabelState).1 =
      PRes.ok (.BlockNode [.LabelNode "foo",
        .StatementNode (.IdentNode "bar")]) ∧
    (parseBlock 20 c6CallState).1 =
      PRes.ok (.BlockNode [.StatementNode
        (.FunctionCallNode (.IdentNode "foo") [])]) := by
  have hgc : s.tokens.get ⟨s.tokIdx.toNat, hlen⟩ = c :=
    (List.get_eq_getElem _ _).trans
      (((List.getD_eq_getElem s.tokens eofTok hlen).symm).trans hcur)
  have htokfull : token s = (PRes.ok c, s) := by
    unfold token tokenAt
    rw [dif_pos ⟨h0, hlen⟩]
    exact congrArg (fun tk => ((PRes.ok tk : PRes Token), s)) hgc
  have htok1 : (token s).1 = PRes.ok c := by rw [htokfull]
  have hkKw : c.kind ≠ .tkKeyword := by
    rw [hkind]
    intro hh
    exact TokenType.noConfusion hh
  have hkBr : c.kind ≠ .tkOpenBrace := by
    rw [hkind]
    intro hh
    exact TokenType.noConfusion hh
  have hkSemi : c.kind ≠ .tkSemicolon := by
    rw [hkind]
    intro hh
    exact TokenType.noConfusion hh
  obtain ⟨e1, hIf⟩ := parseIf_fail f s c htok1 hkKw
  obtain ⟨e2, hBl⟩ := parseBlock_fail f s c htok1 hkBr
  obtain ⟨e3, hVd⟩ := parseVarDecl_fail (f + 1) s c htok1 hkKw
  obtain ⟨e4, hEx⟩ := parseExternVarDecl_fail (f + 1) s c htok1 hkKw
  obtain ⟨e5, hWh⟩ := parseWhile_fail f s c htok1 hkKw
  obtain ⟨e6, hSw⟩ := parseSwitch_fail f s c htok1 hkKw
  have hSemiAcc := accept_none .tkSemicolon "" s c htok1 (fun hc => hkSemi hc.1)
  have hBrkAcc := accept_none .tkKeyword "break" s c htok1 (fun hc => hkKw hc.1)
  have hRetAcc := accept_none .tkKeyword "return" s c htok1 (fun hc => hkKw hc.1)
  have hGotoAcc := accept_none .tkKeyword "goto" s c htok1 (fun hc => hkKw hc.1)
  have hIdAcc := accept_consume .tkIdent "" s c hstream h0 htok1 hkind (Or.inl rfl)
  have htokN := token_nextS s h0 hlen
  have htokN1 : (token (nextS s)).1 =
      PRes.ok (s.tokens.getD (s.tokIdx + 1).toNat eofTok) := by rw [htokN]
  have hstreamN : (nextS s).stream = [] := (nextS_stream s).trans hstream
  have h0N : 0 ≤ (nextS s).tokIdx := by
    rw [nextS_tokIdx]
    omega
  refine ⟨?_, ?_, ?_, rfl, rfl⟩
  · -- next token is a colon: Label
    intro hc
    have hColAcc := accept_consume .tkColon "" (nextS s) _ hstreamN h0N
      htokN1 hc (Or.inl rfl)
    have hfull : parseStatement (f + 2) s =
        (PRes.ok (.LabelNode c.value), nextS (nextS s)) := by
      rw [show f + 2 = (f + 1) + 1 from rfl, parseStatement]
      simp only [bind_app, getS_app]
      rw [tryStmt_fail _ _ _ _ _ hIf rfl, tryStmt_fail _ _ _ _ _ hBl rfl,
        tryStmt_fail _ _ _ _ _ hVd rfl, tryStmt_fail _ _ _ _ _ hEx rfl,
        tryStmt_fail _ _ _ _ _ hWh rfl, tryStmt_fail _ _ _ _ _ hSw rfl]
      simp only [bind_app, acceptType, hSemiAcc, hBrkAcc, hRetAcc, hGotoAcc,
        hIdAcc, hColAcc, pure_app]
    refine ⟨by rw [hfull], ?_⟩
    rw [hfull]
    show (nextS (nextS s)).tokIdx = s.tokIdx + 2
    rw [nextS_tokIdx, nextS_tokIdx]
    omega
  · -- next token is a semicolon: bare identifier expression statement
    intro hc
    have hkColN : (s.tokens.getD (s.tokIdx + 1).toNat eofTok).kind ≠
        .tkColon := by
      rw [hc]
      intro hh
      exact TokenType.noConfusion hh
    have hColAcc := accept_none .tkColon "" (nextS s) _ htokN1
      (fun hcc => hkColN hcc.1)
    have hSemiAcc2 := accept_consume .tkSemicolon "" (nextS s) _ hstreamN h0N
      htokN1 hc (Or.inl rfl)
    have hfull : parseStatement (f + 2) s =
        (PRes.ok (.StatementNode (.IdentNode c.value)), nextS (nextS s)) := by
      rw [show f + 2 = (f + 1) + 1 from rfl, parseStatement]
      simp only [bind_app, getS_app]
      rw [tryStmt_fail _ _ _ _ _ hIf rfl, tryStmt_fail _ _ _ _ _ hBl rfl,
        tryStmt_fail _ _ _ _ _ hVd rfl, tryStmt_fail _ _ _ _ _ hEx rfl,
        tryStmt_fail _ _ _ _ _ hWh rfl, tryStmt_fail _ _ _ _ _ hSw rfl]
      simp only [bind_app, acceptType, hSemiAcc, hBrkAcc, hRetAcc, hGotoAcc,
        hIdAcc, hColAcc, hSemiAcc2, pure_app]
    refine ⟨by rw [hfull], ?_⟩
    rw [hfull]
    show (nextS (nextS s)).tokIdx = s.tokIdx + 2
    rw [nextS_tokIdx, nextS_tokIdx]
    omega
  · -- anything else: rewind the identifier and parse an expression statement
    intro hc1 hc2
    have hColAcc := accept_none .tkColon "" (nextS s) _ htokN1
      (fun hcc => hc1 hcc.1)
    have hSemiAcc2 := accept_none .tkSemicolon "" (nextS s) _ htokN1
      (fun hcc => hc2 hcc.1)
    rw [show f + 2 = (f + 1) + 1 from rfl, parseStatement]
    simp only [bind_app, getS_app]
    rw [tryStmt_fail _ _ _ _ _ hIf rfl, tryStmt_fail _ _ _ _ _ hBl rfl,
      tryStmt_fail _ _ _ _ _ hVd rfl, tryStmt_fail _ _ _ _ _ hEx rfl,
      tryStmt_fail _ _ _ _ _ hWh rfl, tryStmt_fail _ _ _ _ _ hSw rfl]
    simp only [bind_app, acceptType, hSemiAcc, hBrkAcc, hRetAcc, hGotoAcc,
      hIdAcc, hColAcc, hSemiAcc2, modifyS_app, pure_app]

/-- C6 witness: the label case of the general statement evaluated on the
input `x : ;`. -/
theorem claim_C6_witness :
    (parseStatement 20 c6WState).1 = PRes.ok (Node.LabelNode "x") ∧
    (parseStatement 20 c6WState).2.tokIdx = c6WState.tokIdx + 2 :=
  (claim_C6_label_ident_expr 18 c6WState (tId "x") rfl (by decide) (by decide)
    rfl rfl).1 rfl

/-- C9 counterexample: a lex error on a later token is not always trapped
and returned: on `v 1 <lexerror>` the lexer error is met at the unchecked
`nextToken` call inside `expectOneOf` and dropped, after which the parser
panics with an out-of-range token access that `Parse` rethrows. -/
theorem claim_C9_counterexample :
    (Parse 20 c9CrashSt).1 = ParseResult.panicked .indexOutOfRange := rfl

/-- C9 amended: `NewParser` panics when the very first token is a lex
error; a lex error raised through `accept`'s checked `nextToken` call
becomes a panic that `Parse` traps, returning the empty translation unit
together with the lex error — concretely so for `v <lexerror>`.  (Lex
errors met at the unchecked `nextToken` calls are dropped instead, as the
counterexample shows.) -/
theorem claim_C9_amended :
    (∀ (name : String) (e : LexError) (rest : List (Except LexError Token)),
      NewParser name (.error e :: rest) = .error (.goErr (.lexError e))) ∧
    (∀ (f : Nat) (s s' : ParserS) (e : LexError),
      parseLoop f { File := s.name, Funcs := [], Vars := [] } s =
        (PRes.panic (.goErr (.lexError e)), s') →
      Parse f s = (ParseResult.err emptyUnit (.lexError e), s')) ∧
    (Parse 20 c9TrapSt).1 = ParseResult.err emptyUnit (.lexError c9Lex) := by
  refine ⟨?_, ?_, rfl⟩
  · intro name e rest
    rfl
  · intro f s s' e h
    unfold Parse
    rw [h]
    rfl

/-- C9 witness: the trap case of the amended statement evaluated on
`v <lexerror>`. -/
theorem claim_C9_witness :
    Parse 20 c9TrapSt =
      (ParseResult.err emptyUnit (.lexError c9Lex),
       (parseLoop 20 { File := "t", Funcs := [], Vars := [] } c9TrapSt).2) :=
  (claim_C9_amended).2.1 20 c9TrapSt _ c9Lex rfl

end Gob
